import Mathlib

/-!
Verification development for the dia admission/dispatch queue and the
retry-and-archival engine.

The definitions below are a shallow embedding of:
  * src/dbController/TasksJobQueue.ctrl.ts (ticket queue),
  * src/apis/producers/helpers.ts
      (waitUntilTopTask, getIntelligences, updateIntelligences, getProducer).

Timestamps are modelled as Int (JS millisecond epoch values), database
auto-increment record ids as Nat, and absent JSON fields as Option / the
falsy defaults the code applies (0 for failuresNumber, "" for
failuresReason).
-/

deriving instance DecidableEq for Except

namespace Dia

/-! ## Ticket queue: src/dbController/TasksJobQueue.ctrl.ts -/

/-- A row of the TasksJobQueue collection.  `id` is the persistence-assigned
record id (auto-increment primary key / insertion-ordered `_id`): the entity
definition is not part of the analysed sources, so the field is modelled from
the queries (`ORDER BY created_at ASC, id ASC`) and the spec's persistence
layer; it grows with insertion order.  `global_id` is the ticket id generated
by `utils.generateGlobalId("taskjob")` (an opaque string). -/
structure Ticket where
  id : Nat
  global_id : String
  agent_global_id : String
  created_at : Int
  deriving Repr, DecidableEq

/-- The persisted queue: rows plus the next record id the store will assign. -/
structure QueueState where
  tickets : List Ticket
  nextId : Nat
  deriving Repr, DecidableEq

/-- `addATaskJob(globalId, agentGlobalId)`: inserts a row with the current
timestamp; the store assigns the next record id. -/
def addATaskJob (q : QueueState) (globalId agentGlobalId : String) (now : Int) : QueueState :=
  { tickets := q.tickets ++
      [{ id := q.nextId, global_id := globalId,
         agent_global_id := agentGlobalId, created_at := now }],
    nextId := q.nextId + 1 }

/-- Strict comparison used by `getTopTaskJob`'s `ORDER BY created_at ASC, id ASC`. -/
def keyLt (a b : Ticket) : Prop :=
  a.created_at < b.created_at ∨ (a.created_at = b.created_at ∧ a.id < b.id)

instance (a b : Ticket) : Decidable (keyLt a b) := by
  unfold keyLt; exact inferInstance

/-- Reflexive version of the `(created_at, id)` ordering. -/
def keyLe (a b : Ticket) : Prop :=
  a.created_at < b.created_at ∨ (a.created_at = b.created_at ∧ a.id ≤ b.id)

instance (a b : Ticket) : Decidable (keyLe a b) := by
  unfold keyLe; exact inferInstance

theorem keyLe_refl (a : Ticket) : keyLe a a := by
  unfold keyLe; omega

theorem keyLt_le {a b : Ticket} (h : keyLt a b) : keyLe a b := by
  unfold keyLt at h; unfold keyLe; omega

theorem keyLe_of_not_lt {a b : Ticket} (h : ¬ keyLt a b) : keyLe b a := by
  unfold keyLt at h; unfold keyLe; omega

theorem keyLe_trans {a b c : Ticket} (h1 : keyLe a b) (h2 : keyLe b c) : keyLe a c := by
  unfold keyLe at *; omega

theorem keyLt_of_le_of_ne_id {a b : Ticket} (h : keyLe a b) (hid : a.id ≠ b.id) :
    keyLt a b := by
  unfold keyLe at h; unfold keyLt; omega

/-- `getTopTaskJob()`: the first row under `ORDER BY created_at ASC, id ASC`
(`findOne` with `$orderby: { created_at: 1, _id: 1 }` on mongo), i.e. the
minimum of the rows under `keyLt`, realised as a running fold. -/
def getTopTaskJob (ts : List Ticket) : Option Ticket :=
  ts.foldl
    (fun acc t =>
      match acc with
      | none => some t
      | some m => some (if keyLt t m then t else m))
    none

/-- `removeTimeoutJob()`: deletes every row with
`created_at < Date.now() - TASK_JOB_TIMEOUT` (strict comparison). -/
def removeTimeoutJob (now timeout : Int) (ts : List Ticket) : List Ticket :=
  ts.filter (fun t => !decide (t.created_at < now - timeout))

/-- `removeTaskJob(globalId)`: deletes every row whose `global_id` matches. -/
def removeTaskJob (globalId : String) (ts : List Ticket) : List Ticket :=
  ts.filter (fun t => t.global_id != globalId)

/-- `removeTaskJob` lifted to the queue state. -/
def removeTaskJobQ (globalId : String) (q : QueueState) : QueueState :=
  { q with tickets := removeTaskJob globalId q.tickets }

theorem getTopTaskJob_go_spec (ts : List Ticket) (m : Ticket) :
    ∃ j, ts.foldl
        (fun acc t =>
          match acc with
          | none => some t
          | some m => some (if keyLt t m then t else m))
        (some m) = some j
      ∧ (j = m ∨ j ∈ ts) ∧ keyLe j m ∧ ∀ t ∈ ts, keyLe j t := by
  induction ts generalizing m with
  | nil => exact ⟨m, rfl, Or.inl rfl, keyLe_refl m, by simp⟩
  | cons t rest ih =>
    have hstep : (if keyLt t m then t else m) = t ∨ (if keyLt t m then t else m) = m := by
      by_cases h : keyLt t m <;> simp [h]
    have hm : keyLe (if keyLt t m then t else m) m := by
      by_cases h : keyLt t m <;> simp [h, keyLt_le, keyLe_refl]
    have ht : keyLe (if keyLt t m then t else m) t := by
      by_cases h : keyLt t m <;> simp [h, keyLe_refl, keyLe_of_not_lt]
    obtain ⟨j, hj, hmem, hle, hall⟩ := ih (if keyLt t m then t else m)
    refine ⟨j, by simpa using hj, ?_, keyLe_trans hle hm, ?_⟩
    · rcases hmem with h | h
      · rcases hstep with h2 | h2
        · exact Or.inr (by simp [h, h2])
        · exact Or.inl (h.trans h2)
      · exact Or.inr (List.mem_cons_of_mem _ h)
    · intro u hu
      rcases List.mem_cons.mp hu with h | h
      · exact h ▸ keyLe_trans hle ht
      · exact hall u h

theorem getTopTaskJob_min (ts : List Ticket) (hne : ts ≠ []) :
    ∃ j, getTopTaskJob ts = some j ∧ j ∈ ts ∧ ∀ t ∈ ts, keyLe j t := by
  cases ts with
  | nil => exact absurd rfl hne
  | cons t rest =>
    obtain ⟨j, hj, hmem, _, hall⟩ := getTopTaskJob_go_spec rest t
    refine ⟨j, by simpa [getTopTaskJob] using hj, ?_, ?_⟩
    · rcases hmem with h | h
      · simp [h]
      · exact List.mem_cons_of_mem _ h
    · intro u hu
      rcases List.mem_cons.mp hu with h | h
      · obtain ⟨_, _, hle, _⟩ := getTopTaskJob_go_spec rest t
        exact h ▸ (by
          obtain ⟨j2, hj2, _, hle2, _⟩ := getTopTaskJob_go_spec rest t
          have : j2 = j := by rw [hj2] at hj; exact Option.some.inj hj
          exact this ▸ hle2)
      · exact hall u h

theorem getTopTaskJob_nil : getTopTaskJob [] = none := rfl

/-! ## Polling wait: waitUntilTopTask (src/apis/producers/helpers.ts) -/

/-- Outcome of one `setInterval` callback of `waitUntilTopTask`. -/
inductive PollResult where
  /-- `!job || !job.global_id`: the queue returned no row (or a row with a
  falsy `global_id`); the promise is rejected at this poll. -/
  | rejectEmpty
  /-- `job.global_id == globalId`: the caller's ticket is head; resolve. -/
  | resolveTop
  /-- `Date.now() - startTime > taskJobTimeout`: reject. -/
  | rejectTimeout
  /-- none of the above: keep polling. -/
  | keepPolling
  deriving Repr, DecidableEq

/-- One callback of the `setInterval` loop in `waitUntilTopTask`, at a moment
where the queue rows are `ts` and `elapsed = Date.now() - startTime`. -/
def pollStep (ts : List Ticket) (globalId : String) (elapsed timeout : Nat) : PollResult :=
  match getTopTaskJob ts with
  | none => .rejectEmpty
  | some job =>
    if job.global_id == "" then .rejectEmpty
    else if job.global_id == globalId then .resolveTop
    else if elapsed > timeout then .rejectTimeout
    else .keepPolling

/-- The polling loop: `trace k` is the queue contents observed by the k-th
callback, which fires at elapsed time `100 * (k + 1)` (the fixed 100 ms
interval).  `fuel` bounds the recursion; `waitUntilTopTask` supplies enough
fuel for the timeout check to fire, so the bound is never the reason the
loop stops (see `waitUntilTopTask_settles`). -/
def waitAux (trace : Nat → List Ticket) (globalId : String) (timeout : Nat) :
    Nat → Nat → Option PollResult
  | _, 0 => none
  | k, fuel + 1 =>
    match pollStep (trace k) globalId (100 * (k + 1)) timeout with
    | .keepPolling => waitAux trace globalId timeout (k + 1) fuel
    | r => some r

/-- `waitUntilTopTask(globalId)` over an observed queue trace: polls every
100 ms until it resolves (ticket is head) or rejects (queue empty, or more
than `timeout` ms elapsed). -/
def waitUntilTopTask (trace : Nat → List Ticket) (globalId : String) (timeout : Nat) :
    Option PollResult :=
  waitAux trace globalId timeout 0 (timeout / 100 + 1)

theorem pollStep_ne_keep {ts : List Ticket} {globalId : String} {elapsed timeout : Nat}
    (h : timeout < elapsed) :
    pollStep ts globalId elapsed timeout ≠ .keepPolling := by
  unfold pollStep
  rcases getTopTaskJob ts with _ | job
  · simp
  · by_cases h1 : job.global_id == ""
    · simp [h1]
    · by_cases h2 : job.global_id == globalId
      · simp [h1, h2]
      · simp [h1, h2, h]

theorem waitAux_isSome (trace : Nat → List Ticket) (globalId : String) (timeout : Nat) :
    ∀ fuel k, k ≤ timeout / 100 → timeout / 100 < k + fuel →
      (waitAux trace globalId timeout k fuel).isSome = true := by
  intro fuel
  induction fuel with
  | zero => intro k h1 h2; omega
  | succ f ih =>
    intro k h1 _
    rw [waitAux]
    rcases hp : pollStep (trace k) globalId (100 * (k + 1)) timeout with _ | _ | _ | _ <;>
      simp_all
    by_cases hk : 100 * (k + 1) ≤ timeout
    · exact ih (k + 1) (by omega) (by omega)
    · exact absurd hp (pollStep_ne_keep (by omega))

theorem waitUntilTopTask_settles (trace : Nat → List Ticket) (globalId : String)
    (timeout : Nat) : (waitUntilTopTask trace globalId timeout).isSome = true :=
  waitAux_isSome trace globalId timeout (timeout / 100 + 1) 0 (by omega) (by omega)

/-- Any settled outcome of the loop is the outcome of some poll. -/
theorem waitAux_provenance (trace : Nat → List Ticket) (globalId : String) (timeout : Nat) :
    ∀ fuel k r, waitAux trace globalId timeout k fuel = some r →
      ∃ k2, pollStep (trace k2) globalId (100 * (k2 + 1)) timeout = r ∧ r ≠ .keepPolling := by
  intro fuel
  induction fuel with
  | zero => intro k r h; simp [waitAux] at h
  | succ f ih =>
    intro k r h
    rw [waitAux] at h
    rcases hp : pollStep (trace k) globalId (100 * (k + 1)) timeout with _ | _ | _ | _ <;>
      rw [hp] at h
    · cases Option.some.inj h; exact ⟨k, hp, by simp⟩
    · cases Option.some.inj h; exact ⟨k, hp, by simp⟩
    · cases Option.some.inj h; exact ⟨k, hp, by simp⟩
    · exact ih (k + 1) r h

/-! ## Intelligence lifecycle: updateIntelligences (src/apis/producers/helpers.ts)

Constants from `src/util/constants` (not among the analysed sources) are
modelled from the spec: the state set {CONFIGURED, DISPATCHED, FINISHED,
FAILED} and a configured maximum failure count
(`CONFIG.MAX_FAIL_NUMBER_FOR_INTELLIGENCE`), passed here as a parameter. -/

/-- An intelligence lifecycle state. -/
inductive IState where
  | configured
  | dispatched
  | finished
  | failed
  deriving Repr, DecidableEq

/-- `system.producer` attempt metadata; each field may be absent in a report
(`_.get` then yields `undefined`). -/
structure ProducerMeta where
  globalId : Option String
  ptype : Option String
  startedAt : Option Int
  endedAt : Option Int
  deriving Repr, DecidableEq

/-- The `system` block of a stored intelligence.  A missing
`failuresNumber` behaves as 0 (`item.system.failuresNumber || 0`) and a
missing `failuresReason` as "" (both are falsy), so those two are stored
with their falsy defaults. -/
structure IntSystem where
  state : IState
  failuresNumber : Nat
  failuresReason : String
  producer : Option ProducerMeta
  modified : Int
  endedAt : Int
  deriving Repr, DecidableEq

/-- A stored (active or archived) intelligence record. -/
structure Intelligence where
  globalId : String
  system : IntSystem
  deriving Repr, DecidableEq

/-- The `system` block of one reported outcome; every field is read with
`_.get` and may be absent. -/
structure ReportSystem where
  state : Option IState
  failuresReason : Option String
  producer : ProducerMeta
  deriving Repr, DecidableEq

/-- One element of the `content` array passed to `updateIntelligences`. -/
structure ReportItem where
  globalId : String
  system : ReportSystem
  deriving Repr, DecidableEq

/-- The object pushed onto `failedIntelligences` on the retry path: only the
listed `system` fields are sent to `updateEachIntelligencesDB`. -/
structure RetryUpdate where
  globalId : String
  modified : Int
  endedAt : Int
  state : IState
  failuresNumber : Nat
  failuresReason : Option String
  producer : ProducerMeta
  deriving Repr, DecidableEq

/-- Result of classifying one reported outcome against its stored record. -/
inductive Classified where
  | retry (u : RetryUpdate)
  | terminal (h : Intelligence)
  deriving Repr, DecidableEq

/-- The per-item branch of the `updateIntelligences` loop, for a stored
record `item` and the report `r` found for it in `contentMap`:

* if `(item.system.failuresNumber || 0) < MAX_FAIL_NUMBER_FOR_INTELLIGENCE`
  and the reported state is not FINISHED, the failure counter is bumped
  (`1` when falsy, `+= 1` otherwise — both are `+ 1` from the stored value)
  and a retry update carrying the reported state (FAILED when the report
  has none: `_.get(...) || FAILED`), reason and producer metadata is queued;
* otherwise the record itself is mutated into the history copy: one more
  failure and the reported reason if the reported state is not FINISHED,
  state from the report with default FINISHED (`_.get(..., FINISHED)`), and
  the report's producer attempt fields. -/
def classifyWith (MAX : Nat) (now : Int) (item : Intelligence) (r : ReportItem) :
    Classified :=
  if item.system.failuresNumber < MAX ∧ r.system.state ≠ some .finished then
    .retry
      { globalId := item.globalId
        modified := now
        endedAt := now
        state := r.system.state.getD .failed
        failuresNumber := item.system.failuresNumber + 1
        failuresReason := r.system.failuresReason
        producer := r.system.producer }
  else
    .terminal
      { globalId := item.globalId
        system :=
          { state := r.system.state.getD .finished
            failuresNumber :=
              if r.system.state ≠ some .finished then item.system.failuresNumber + 1
              else item.system.failuresNumber
            failuresReason :=
              if r.system.state ≠ some .finished then r.system.failuresReason.getD ""
              else item.system.failuresReason
            producer := some r.system.producer
            modified := now
            endedAt := now } }

def isTerminal : Classified → Bool
  | .retry _ => false
  | .terminal _ => true

/-- The failure counter carried by a classification result. -/
def fnOf : Classified → Nat
  | .retry u => u.failuresNumber
  | .terminal h => h.system.failuresNumber

/-- `contentMap[gid]`: the map is filled by iterating `content` and
assigning, so a later report for the same globalId overwrites an earlier
one. -/
def lookupReport (content : List ReportItem) (gid : String) : Option ReportItem :=
  content.foldl (fun acc r => if r.globalId == gid then some r else acc) none

/-- Classification of one stored record against the whole `content` batch.
When no report exists for the record, every `_.get` yields `undefined`: the
retry branch still works on the defaults, but the terminal branch crashes on
`contentMap[item.globalId].system.producer.globalId` (a TypeError), which
aborts `updateIntelligences` before any store is written; that is the
`.error` case. -/
def classifyItem (MAX : Nat) (now : Int) (content : List ReportItem)
    (item : Intelligence) : Except Unit Classified :=
  match lookupReport content item.globalId with
  | some r => .ok (classifyWith MAX now item r)
  | none =>
    if item.system.failuresNumber < MAX then
      .ok (.retry
        { globalId := item.globalId
          modified := now
          endedAt := now
          state := .failed
          failuresNumber := item.system.failuresNumber + 1
          failuresReason := none
          producer := ⟨none, none, none, none⟩ })
    else .error ()

/-- Accumulated output of the `for` loop of `updateIntelligences`:
`failedIntelligences`, `intelligenceHistory` and the terminal `gids`, each
in processing order. -/
structure LoopOut where
  failed : List RetryUpdate
  history : List Intelligence
  gids : List String
  deriving Repr, DecidableEq

/-- The `for` loop of `updateIntelligences` over the records fetched from
the store. -/
def processItems (MAX : Nat) (now : Int) (content : List ReportItem) :
    List Intelligence → Except Unit LoopOut
  | [] => .ok ⟨[], [], []⟩
  | item :: rest =>
    match classifyItem MAX now content item with
    | .error e => .error e
    | .ok c =>
      match processItems MAX now content rest with
      | .error e => .error e
      | .ok out =>
        match c with
        | .retry u => .ok ⟨u :: out.failed, out.history, out.gids⟩
        | .terminal h => .ok ⟨out.failed, h :: out.history, item.globalId :: out.gids⟩

/-- The post-loop pass over `intelligenceHistory`: when the record's state is
FINISHED and `failuresReason` is truthy, it is reset to "". -/
def clearFinishedReason (h : Intelligence) : Intelligence :=
  if h.system.state = .finished ∧ h.system.failuresReason ≠ "" then
    { h with system := { h.system with failuresReason := "" } }
  else h

/-! The persistence operations on the intelligence collections
(`src/dbController/IntelligenceAndHistory.ctrl.ts`) are not among the
analysed sources; they are modelled from the spec's persistence layer:
find-by-id / update / delete over the Intelligence collection and
append-only insert over the HistoryRecord collection. -/

/-- Modelled from the spec: `getIntelligencesDB(gids, ...)` — find-by-id
over the active Intelligence collection. -/
def getIntelligencesDB (active : List Intelligence) (gids : List String) :
    List Intelligence :=
  active.filter (fun it => gids.contains it.globalId)

/-- Modelled from the spec: `updateEachIntelligencesDB` applies one retry
update to the record with the matching globalId (single-record update; the
absent `failuresReason` of an update is stored as its falsy default). -/
def applyRetryUpdate (active : List Intelligence) (u : RetryUpdate) :
    List Intelligence :=
  active.map fun it =>
    if it.globalId == u.globalId then
      { it with system :=
          { state := u.state
            failuresNumber := u.failuresNumber
            failuresReason := u.failuresReason.getD ""
            producer := some u.producer
            modified := u.modified
            endedAt := u.endedAt } }
    else it

/-- Modelled from the spec: `updateEachIntelligencesDB(failedIntelligences)`. -/
def updateEachIntelligencesDB (active : List Intelligence)
    (updates : List RetryUpdate) : List Intelligence :=
  updates.foldl applyRetryUpdate active

/-- Modelled from the spec: `addIntelligenceHistoryDB` — append-only insert
into the HistoryRecord collection. -/
def addIntelligenceHistoryDB (history newRecords : List Intelligence) :
    List Intelligence :=
  history ++ newRecords

/-- Modelled from the spec: `deleteIntelligencesDB(gids, ...)` — delete over
the active Intelligence collection. -/
def deleteIntelligencesDB (active : List Intelligence) (gids : List String) :
    List Intelligence :=
  active.filter (fun it => !gids.contains it.globalId)

/-- The active and archive intelligence stores. -/
structure Stores where
  active : List Intelligence
  history : List Intelligence
  deriving Repr, DecidableEq

/-- `updateIntelligences(content, securityKey)`: fetch the active records for
the reported globalIds; if none, change nothing; otherwise classify each
record, apply the retry updates, clear `failuresReason` on FINISHED history
copies, append them to the history store and delete their globalIds from the
active store.  An `.error` result is the loop throwing (see `classifyItem`):
it propagates before any store is written. -/
def updateIntelligences (MAX : Nat) (now : Int) (content : List ReportItem)
    (s : Stores) : Except Unit Stores :=
  let gids := content.map (·.globalId)
  let intelligences := getIntelligencesDB s.active gids
  if intelligences.isEmpty then .ok s
  else
    match processItems MAX now content intelligences with
    | .error e => .error e
    | .ok out =>
      let cleared := out.history.map clearFinishedReason
      let active1 := updateEachIntelligencesDB s.active out.failed
      let history1 := addIntelligenceHistoryDB s.history cleared
      let active2 := deleteIntelligencesDB active1 out.gids
      .ok { active := active2, history := history1 }

/-! ## requestWork: getIntelligences (src/apis/producers/helpers.ts) -/

/-- The producer directory record consulted by `getProducer`. -/
structure ProducerConfig where
  globalId : String
  securityKey : Option String
  state : String
  deriving Repr, DecidableEq

/-- The errors `getIntelligences` can throw.  `waitUntilTopTask` rejects
with the bare value `false` in both of its failure branches (queue observed
empty, and timeout), so a single `queueWaitRejected` models both. -/
inductive GIErr where
  | queueWaitRejected
  | emptyGlobalId
  | producerNotFound
  | securityKeyMismatch
  | producerNotActive
  deriving Repr, DecidableEq

/-- The `"undefined"` / `"null"` literal-string normalisation applied to the
caller's key and to the producer's stored key before they are compared. -/
def normalizeKey : Option String → Option String
  | none => none
  | some s => if s == "undefined" || s == "null" then none else some s

/-- `_.trim` as applied to a possibly-undefined key: `_.trim(undefined)`
is "". -/
def trimOpt : Option String → String
  | none => ""
  | some s => s.trim

/-- `getProducer(gid, securityKey)` as called by `getIntelligences` (no
serialId/jobId/type arguments): reject a falsy gid, look the producer up by
globalId (modelled from the spec: `ProducerDirectory.get` fails with
NotFound when absent) and return it.  The lastPing side write is not
observable by any claim and is not tracked. -/
def getProducer (producers : List ProducerConfig) (gid : String) :
    Except GIErr ProducerConfig :=
  if gid == "" then .error .emptyGlobalId
  else
    match producers.find? (fun p => p.globalId == gid) with
    | none => .error .producerNotFound
    | some p => .ok p

/-- External collaborators and the concurrently evolving queue observed by
the polling wait: `trace k` is what the k-th poll reads, `timeout` is
`TASK_JOB_TIMEOUT`, `producers` is the producer directory and `eligible`
is `getIntelligencesForProducerDB` (modelled as an abstract query over the
producer configuration and normalised security key). -/
structure Env where
  producers : List ProducerConfig
  eligible : ProducerConfig → Option String → List Intelligence
  trace : Nat → List Ticket
  timeout : Nat

/-- `getIntelligences(producerGid, securityKey)`: insert a ticket with the
fresh `taskJobGlobalId`, wait until it is head, normalise the caller's key,
fetch the producer, normalise its stored key, compare the trimmed keys,
check the ACTIVE state (after `utils.omit` strips the stored key) and fetch
the eligible intelligences.  Every path — success or any throw — removes
the ticket (`removeTaskJob` in the `try` tail and in the `catch`). -/
def getIntelligences (env : Env) (q : QueueState) (now : Int)
    (taskJobGlobalId producerGid : String) (securityKey : Option String) :
    Except GIErr (List Intelligence) × QueueState :=
  let q1 := addATaskJob q taskJobGlobalId producerGid now
  if waitUntilTopTask env.trace taskJobGlobalId env.timeout ≠ some .resolveTop then
    (.error .queueWaitRejected, removeTaskJobQ taskJobGlobalId q1)
  else
    let key := normalizeKey securityKey
    match getProducer env.producers producerGid with
    | .error e => (.error e, removeTaskJobQ taskJobGlobalId q1)
    | .ok p =>
      let producerSecurityKey := normalizeKey p.securityKey
      if trimOpt producerSecurityKey ≠ trimOpt key then
        (.error .securityKeyMismatch, removeTaskJobQ taskJobGlobalId q1)
      else
        let p1 := { p with securityKey := none }
        if p1.state.toUpper ≠ "ACTIVE" then
          (.error .producerNotActive, removeTaskJobQ taskJobGlobalId q1)
        else
          (.ok (env.eligible p1 key), removeTaskJobQ taskJobGlobalId q1)

/-! ## Concrete fixtures -/

/-- Producer attempt metadata used by the concrete runs. -/
def pm0 : ProducerMeta := ⟨some "p1", some "HEADLESSBROWSER", some 10, some 20⟩

/-- A freshly dispatched intelligence with no failures yet. -/
def item0 : Intelligence := ⟨"i1", ⟨.dispatched, 0, "", none, 0, 0⟩⟩

/-- A FAILED report for `item0`'s globalId carrying a failure reason. -/
def repFail : ReportItem := ⟨"i1", ⟨some .failed, some "boom", pm0⟩⟩

/-- Initial stores: `item0` active, empty archive. -/
def stores0 : Stores := ⟨[item0], []⟩

/-- Three successive FAILED reports on `item0` with maximum failure count 2:
the scenario of the retry-bound claim. -/
def runThrice : Except Unit Stores :=
  match updateIntelligences 2 100 [repFail] stores0 with
  | .error e => .error e
  | .ok s1 =>
    match updateIntelligences 2 200 [repFail] s1 with
    | .error e => .error e
    | .ok s2 => updateIntelligences 2 300 [repFail] s2

/-! ## C1 -/

/-- C1: a reported outcome whose state is not FINISHED increments the stored
`failuresNumber` by exactly 1 (on the retry path and on the
retries-exhausted terminal path alike); the item is classified terminal —
moved to history instead of updated in place — exactly when the reported
state is FINISHED or `failuresNumber` has reached the configured maximum
(equivalently, the post-report counter exceeds it); and three FAILED reports
with maximum 2 leave the active store empty and archive the record with
`failuresNumber = 3` on the third report. -/
theorem retry_bound_and_terminal_condition :
    (∀ (MAX : Nat) (now : Int) (item : Intelligence) (r : ReportItem),
      r.system.state ≠ some .finished →
        fnOf (classifyWith MAX now item r) = item.system.failuresNumber + 1)
    ∧ (∀ (MAX : Nat) (now : Int) (item : Intelligence) (r : ReportItem),
      isTerminal (classifyWith MAX now item r) = true ↔
        (r.system.state = some .finished ∨ MAX ≤ item.system.failuresNumber))
    ∧ runThrice.map
        (fun s => (s.active, s.history.map fun h => (h.globalId, h.system.failuresNumber)))
        = .ok ([], [("i1", 3)]) := by
  refine ⟨?_, ?_, by decide⟩
  · intro MAX now item r hr
    unfold classifyWith
    by_cases hlt : item.system.failuresNumber < MAX
    · simp [hlt, hr, fnOf]
    · simp [hlt, hr, fnOf]
  · intro MAX now item r
    unfold classifyWith
    by_cases hc : item.system.failuresNumber < MAX ∧ r.system.state ≠ some .finished
    · rw [if_pos hc]
      simp only [isTerminal]
      constructor
      · intro h2
        simp at h2
      · rintro (hs | hm)
        · exact absurd hs hc.2
        · exact absurd hc.1 (by omega)
    · rw [if_neg hc]
      simp only [isTerminal]
      refine ⟨fun _ => ?_, fun _ => trivial⟩
      by_cases hs : r.system.state = some .finished
      · exact Or.inl hs
      · refine Or.inr ?_
        by_cases hlt : item.system.failuresNumber < MAX
        · exact absurd ⟨hlt, hs⟩ hc
        · omega

/-- C1 witness: on `item0` (counter 0) a FAILED report yields counter 1. -/
theorem retry_bound_and_terminal_condition_witness :
    fnOf (classifyWith 2 100 item0 repFail) = item0.system.failuresNumber + 1 :=
  retry_bound_and_terminal_condition.1 2 100 item0 repFail (by decide)

/-! ## C3 -/

theorem classifyWith_terminal_gid (MAX : Nat) (now : Int) (item : Intelligence)
    (r : ReportItem) (h : Intelligence) :
    classifyWith MAX now item r = .terminal h → h.globalId = item.globalId := by
  unfold classifyWith
  by_cases hc : item.system.failuresNumber < MAX ∧ r.system.state ≠ some .finished <;>
    simp [hc]
  rintro rfl
  rfl

theorem clearFinishedReason_gid (h : Intelligence) :
    (clearFinishedReason h).globalId = h.globalId := by
  unfold clearFinishedReason
  split <;> rfl

theorem processItems_terminal_mem (MAX : Nat) (now : Int) (content : List ReportItem) :
    ∀ (items : List Intelligence) (out : LoopOut) (item : Intelligence)
      (r : ReportItem) (h : Intelligence),
      processItems MAX now content items = .ok out →
      item ∈ items →
      lookupReport content item.globalId = some r →
      classifyWith MAX now item r = .terminal h →
      h ∈ out.history ∧ item.globalId ∈ out.gids := by
  intro items
  induction items with
  | nil => intro out item r h _ hmem; simp at hmem
  | cons x rest ih =>
    intro out item r h hok hmem hlk hcl
    rw [processItems] at hok
    rcases hcx : classifyItem MAX now content x with e | c <;> rw [hcx] at hok
    · simp at hok
    rcases hrest : processItems MAX now content rest with e | out1 <;> rw [hrest] at hok
    · simp at hok
    rcases List.mem_cons.mp hmem with rfl | hmem2
    · unfold classifyItem at hcx
      rw [hlk] at hcx
      have hc2 : classifyWith MAX now item r = c := Except.ok.inj hcx
      rw [hcl] at hc2
      subst hc2
      have hout : (⟨out1.failed, h :: out1.history, item.globalId :: out1.gids⟩ : LoopOut)
          = out := Except.ok.inj hok
      subst hout
      exact ⟨List.mem_cons_self _ _, List.mem_cons_self _ _⟩
    · obtain ⟨ih1, ih2⟩ := ih out1 item r h hrest hmem2 hlk hcl
      rcases c with u | h2
      · have hout : (⟨u :: out1.failed, out1.history, out1.gids⟩ : LoopOut) = out :=
          Except.ok.inj hok
        subst hout
        exact ⟨ih1, ih2⟩
      · have hout : (⟨out1.failed, h2 :: out1.history, x.globalId :: out1.gids⟩ : LoopOut)
          = out := Except.ok.inj hok
        subst hout
        exact ⟨List.mem_cons_of_mem _ ih1, List.mem_cons_of_mem _ ih2⟩

/-- C3: when `updateIntelligences` classifies a fetched record as terminal,
the completed run leaves that globalId present in the history store and
absent from the active store. -/
theorem archival_exclusivity (MAX : Nat) (now : Int) (content : List ReportItem)
    (s s' : Stores) (item : Intelligence) (r : ReportItem) (h : Intelligence) :
    updateIntelligences MAX now content s = .ok s' →
    item ∈ getIntelligencesDB s.active (content.map (·.globalId)) →
    lookupReport content item.globalId = some r →
    classifyWith MAX now item r = .terminal h →
    item.globalId ∈ s'.history.map (·.globalId) ∧
      item.globalId ∉ s'.active.map (·.globalId) := by
  intro hok hmem hlk hcl
  unfold updateIntelligences at hok
  rw [if_neg (by simp [List.isEmpty_iff]; exact List.ne_nil_of_mem hmem)] at hok
  rcases hpr : processItems MAX now content (getIntelligencesDB s.active
      (content.map (·.globalId))) with e | out <;> rw [hpr] at hok
  · simp at hok
  have hs2 : Stores.mk
      (deleteIntelligencesDB (updateEachIntelligencesDB s.active out.failed) out.gids)
      (addIntelligenceHistoryDB s.history (out.history.map clearFinishedReason))
      = s' := Except.ok.inj hok
  obtain ⟨hh, hg⟩ := processItems_terminal_mem MAX now content _ out item r h hpr hmem hlk hcl
  subst hs2
  constructor
  · apply List.mem_map.mpr
    refine ⟨clearFinishedReason h, ?_, ?_⟩
    · exact List.mem_append_right _ (List.mem_map.mpr ⟨h, hh, rfl⟩)
    · rw [clearFinishedReason_gid]
      exact classifyWith_terminal_gid MAX now item r h hcl
  · intro hbad
    obtain ⟨a, ha, hagid⟩ := List.mem_map.mp hbad
    have := List.mem_filter.mp ha
    rw [hagid] at this
    simp at this
    exact this.2 hg

/-- A record with the failure budget exhausted, used to drive the terminal
path concretely. -/
def item2w : Intelligence := ⟨"i1", ⟨.dispatched, 2, "old", none, 0, 0⟩⟩

/-- The stores produced by reporting FAILED on `item2w` with maximum 2. -/
def s3w : Stores :=
  match updateIntelligences 2 300 [repFail] ⟨[item2w], []⟩ with
  | .ok s => s
  | .error _ => ⟨[], []⟩

/-- The terminal history copy produced for `item2w` by that report. -/
def h3w : Intelligence :=
  match classifyWith 2 300 item2w repFail with
  | .terminal h => h
  | .retry _ => item2w

/-- C3 witness: after that concrete run, "i1" is archived and no longer
active. -/
theorem archival_exclusivity_witness :
    "i1" ∈ s3w.history.map (·.globalId) ∧ "i1" ∉ s3w.active.map (·.globalId) :=
  archival_exclusivity 2 300 [repFail] ⟨[item2w], []⟩ s3w item2w repFail h3w
    (by decide) (by decide) (by decide) (by decide)

/-! ## C4 -/

/-- The retry update the code produces for `item0` under a first FAILED
report with maximum 2. -/
def u4 : RetryUpdate := ⟨"i1", 100, 100, .failed, 1, some "boom", pm0⟩

/-- C4: failing input for the retry-path claim.  On the retry path the code
does increment `failuresNumber`, stamp the timestamps, record the producer
attempt metadata and set `failuresReason` from the report — but the update
it writes carries `state = _.get(report, "system.state") || FAILED`, i.e.
FAILED here, not CONFIGURED, so the record does not remain eligible for
re-dispatch even though the comment above the branch says the producer
should "try to collect it again". -/
theorem retry_path_state_not_configured :
    classifyWith 2 100 item0 repFail = .retry u4
    ∧ u4.state = .failed
    ∧ u4.state ≠ .configured
    ∧ u4.failuresNumber = item0.system.failuresNumber + 1
    ∧ u4.failuresReason = some "boom"
    ∧ u4.modified = 100 ∧ u4.endedAt = 100
    ∧ u4.producer = repFail.system.producer := by decide

/-! ## C5 -/

theorem clearFinishedReason_spec (h : Intelligence) :
    (clearFinishedReason h).system.state = h.system.state ∧
    ((clearFinishedReason h).system.state = .finished →
      (clearFinishedReason h).system.failuresReason = "") := by
  unfold clearFinishedReason
  by_cases hc : h.system.state = .finished ∧ h.system.failuresReason ≠ ""
  · rw [if_pos hc]
    exact ⟨rfl, fun _ => rfl⟩
  · rw [if_neg hc]
    refine ⟨rfl, fun hf => ?_⟩
    by_cases hr : h.system.failuresReason = ""
    · exact hr
    · exact absurd ⟨hf, hr⟩ hc

theorem clearFinishedReason_of_ne (h : Intelligence)
    (hne : h.system.state ≠ .finished) : clearFinishedReason h = h := by
  unfold clearFinishedReason
  rw [if_neg (fun hc => hne hc.1)]

theorem terminalReason_spec (MAX : Nat) (now : Int) (item : Intelligence)
    (r : ReportItem) (h2 : Intelligence) :
    classifyWith MAX now item r = .terminal h2 →
      ((clearFinishedReason h2).system.state = .finished →
        (clearFinishedReason h2).system.failuresReason = "")
      ∧ ((clearFinishedReason h2).system.state ≠ .finished →
        (clearFinishedReason h2).system.failuresReason =
          r.system.failuresReason.getD "") := by
  intro hcl
  unfold classifyWith at hcl
  by_cases hc : item.system.failuresNumber < MAX ∧ r.system.state ≠ some .finished
  · rw [if_pos hc] at hcl
    exact absurd hcl (by simp)
  · rw [if_neg hc] at hcl
    have hrec := Classified.terminal.inj hcl
    subst hrec
    rcases hrs : r.system.state with _ | st
    · simp [hrs, clearFinishedReason]
      split_ifs <;> simp_all
    · rcases eq_or_ne st .finished with rfl | hst
      · simp [hrs, clearFinishedReason]
        split_ifs <;> simp_all
      · simp [hrs, clearFinishedReason, hst]

/-- C5 (amended): every record `updateIntelligences` adds to the history
store satisfies: if its terminal state is FINISHED its `failuresReason` is
cleared; and per terminal classification, when the terminal state is not
FINISHED the archived `failuresReason` is whatever the final report carried
(the report's reason, "" when the report has none) — so a nonempty reported
reason is retained, but the reason is not guaranteed nonempty. -/
theorem history_reason_clearing :
    (∀ (MAX : Nat) (now : Int) (content : List ReportItem) (s s' : Stores),
      updateIntelligences MAX now content s = .ok s' →
      ∀ h2 ∈ s'.history, h2 ∈ s.history ∨
        (h2.system.state = .finished → h2.system.failuresReason = ""))
    ∧ (∀ (MAX : Nat) (now : Int) (item : Intelligence) (r : ReportItem)
        (h2 : Intelligence),
      classifyWith MAX now item r = .terminal h2 →
        ((clearFinishedReason h2).system.state = .finished →
          (clearFinishedReason h2).system.failuresReason = "")
        ∧ ((clearFinishedReason h2).system.state ≠ .finished →
          (clearFinishedReason h2).system.failuresReason =
            r.system.failuresReason.getD "")) := by
  refine ⟨?_, terminalReason_spec⟩
  intro MAX now content s s' hok h2 hmem
  unfold updateIntelligences at hok
  by_cases he : (getIntelligencesDB s.active (content.map (·.globalId))).isEmpty
  · rw [if_pos he] at hok
    cases Except.ok.inj hok
    exact Or.inl hmem
  · rw [if_neg he] at hok
    rcases hpr : processItems MAX now content
        (getIntelligencesDB s.active (content.map (·.globalId))) with e | out <;>
      rw [hpr] at hok
    · cases hok
    · have hs2 : Stores.mk
          (deleteIntelligencesDB (updateEachIntelligencesDB s.active out.failed) out.gids)
          (addIntelligenceHistoryDB s.history (out.history.map clearFinishedReason))
          = s' := Except.ok.inj hok
      subst hs2
      rcases List.mem_append.mp hmem with hl | hr
      · exact Or.inl hl
      · obtain ⟨h0, _, rfl⟩ := List.mem_map.mp hr
        exact Or.inr (clearFinishedReason_spec h0).2

/-- A FAILED report that carries no `failuresReason`. -/
def repFailNoReason : ReportItem := ⟨"i1", ⟨some .failed, none, pm0⟩⟩

/-- C5 counterexample: reporting FAILED with no reason on a record whose
failure budget is exhausted archives a record whose terminal state is FAILED
and whose `failuresReason` is empty — an archived record with cleared reason
but non-FINISHED state, refuting the claimed "cleared iff FINISHED". -/
theorem history_reason_clearing_cex :
    (updateIntelligences 2 300 [repFailNoReason] ⟨[item2w], []⟩).map
        (fun s => s.history.map fun h => (h.system.state, h.system.failuresReason))
      = .ok [(.failed, "")] := by decide

/-- A FINISHED report for `item2w`'s globalId. -/
def repFin : ReportItem := ⟨"i1", ⟨some .finished, some "r2", pm0⟩⟩

/-- The terminal history copy produced for `item2w` by the FINISHED report. -/
def h5w : Intelligence :=
  match classifyWith 2 300 item2w repFin with
  | .terminal h => h
  | .retry _ => item2w

/-- C5 witness: the concrete FINISHED archive copy has its reason cleared. -/
theorem history_reason_clearing_witness :
    (clearFinishedReason h5w).system.failuresReason = "" :=
  (history_reason_clearing.2 2 300 item2w repFin h5w (by decide)).1 (by decide)

/-! ## C2 -/

/-- Same-millisecond ticket inserted first but carrying the
lexicographically larger globalId. -/
def tZ : Ticket := ⟨1, "z", "p", 1⟩

/-- Same-millisecond ticket inserted second but carrying the smaller
globalId. -/
def tA2 : Ticket := ⟨2, "a", "p", 1⟩

/-- C2 counterexample: `getTopTaskJob` breaks `created_at` ties by the
persistence record id (insertion order), not by the ticket globalId.  With
two tickets created in the same millisecond, the head is the one inserted
first (`tZ`), although a live ticket with a strictly smaller globalId
(`tA2`) exists — so the head is not the minimum under
(createdAt, globalId). -/
theorem queue_head_globalId_tiebreak_cex :
    getTopTaskJob [tZ, tA2] = some tZ
    ∧ tA2 ∈ [tZ, tA2]
    ∧ tA2.created_at = tZ.created_at
    ∧ tA2.global_id < tZ.global_id := by
  refine ⟨by decide, by decide, by decide, ?_⟩
  rw [String.lt_iff_toList_lt]
  decide

/-- Scenario ticket A, enqueued at t = 0. -/
def tQA : Ticket := ⟨1, "ga", "p", 0⟩

/-- Scenario ticket B, enqueued at t = 1 before C. -/
def tQB : Ticket := ⟨2, "gb", "p", 1⟩

/-- Scenario ticket C, enqueued at t = 1 after B, with globalId greater
than B's. -/
def tQC : Ticket := ⟨3, "gc", "p", 1⟩

/-- C2 (amended): the head of the queue is the unique live ticket minimal
under the strict total order (created_at ascending, record id ascending) —
the persistence insertion id, not the ticket globalId, is the tie-break.
For A enqueued at t = 0 and B, C enqueued at t = 1 in that insertion order,
the head order is A, then B, then C. -/
theorem queue_head_fifo_by_record_id :
    (∀ ts : List Ticket, ts ≠ [] →
      ∃ j, getTopTaskJob ts = some j ∧ j ∈ ts ∧ (∀ t ∈ ts, keyLe j t)
        ∧ ((ts.map (·.id)).Nodup → ∀ t ∈ ts, t ≠ j → keyLt j t))
    ∧ getTopTaskJob [tQA, tQB, tQC] = some tQA
    ∧ getTopTaskJob [tQB, tQC] = some tQB
    ∧ getTopTaskJob [tQC] = some tQC := by
  refine ⟨?_, by decide, by decide, by decide⟩
  intro ts hne
  obtain ⟨j, hj, hmem, hall⟩ := getTopTaskJob_min ts hne
  refine ⟨j, hj, hmem, hall, ?_⟩
  intro hnd t ht htne
  have hle := hall t ht
  have hid : j.id ≠ t.id := by
    intro heq
    exact htne (List.inj_on_of_nodup_map hnd ht hmem heq.symm)
  exact keyLt_of_le_of_ne_id hle hid

/-- C2 witness: the general head characterisation applied to the scenario
queue. -/
theorem queue_head_fifo_by_record_id_witness :
    ∃ j, getTopTaskJob [tQA, tQB, tQC] = some j ∧ j ∈ [tQA, tQB, tQC]
      ∧ (∀ t ∈ [tQA, tQB, tQC], keyLe j t)
      ∧ (([tQA, tQB, tQC].map (·.id)).Nodup → ∀ t ∈ [tQA, tQB, tQC], t ≠ j → keyLt j t) :=
  queue_head_fifo_by_record_id.1 [tQA, tQB, tQC] (by decide)

/-! ## C6 -/

/-- A surviving ticket belonging to some other producer. -/
def tOther : Ticket := ⟨1, "other", "p", 0⟩

/-- C6 counterexample: a caller whose ticket "mine" has been evicted while
another ticket remains does not fail at the poll that observes this — the
poll keeps polling — and the wait then runs the full timeout (500 ms, six
polls) before rejecting with the ordinary timeout outcome. -/
theorem wait_ticket_lost_cex :
    pollStep [tOther] "mine" 100 500 = .keepPolling
    ∧ waitUntilTopTask (fun _ => [tOther]) "mine" 500 = some .rejectTimeout := by
  exact ⟨by decide, by decide⟩

/-- C6 (amended): the wait fails immediately — at the very first poll,
independently of the timeout — only when the queue is observed entirely
empty (`!job`); a ticket evicted while other tickets remain is
indistinguishable from not-yet-head, so that caller waits out the full
timeout, and both rejections carry the same rejected value `false`. -/
theorem wait_rejects_immediately_only_when_queue_empty :
    ∀ (trace : Nat → List Ticket) (globalId : String) (timeout : Nat),
      trace 0 = [] → waitUntilTopTask trace globalId timeout = some .rejectEmpty := by
  intro trace globalId timeout h0
  unfold waitUntilTopTask
  rw [waitAux, h0]
  simp [pollStep, getTopTaskJob]

/-- C6 witness: an emptied queue rejects at the first poll of a 500 ms wait. -/
theorem wait_rejects_immediately_witness :
    waitUntilTopTask (fun _ => []) "w6" 500 = some .rejectEmpty :=
  wait_rejects_immediately_only_when_queue_empty (fun _ => []) "w6" 500 rfl

/-! ## C8 -/

/-- C8: the polling wait always settles (the fuel `timeout / 100 + 1`
suffices because the k-th poll runs at elapsed time `100 * (k + 1)`, which
exceeds the timeout once `k = timeout / 100`); it resolves when the
caller's ticket heads the queue at a poll; and when the queue is never
empty and the ticket never becomes head it settles by rejecting on the
timeout check.  It never polls forever. -/
theorem wait_poll_terminates :
    ∀ (trace : Nat → List Ticket) (globalId : String) (timeout : Nat),
      (waitUntilTopTask trace globalId timeout).isSome = true
      ∧ (∀ j, getTopTaskJob (trace 0) = some j → j.global_id = globalId →
          globalId ≠ "" →
          waitUntilTopTask trace globalId timeout = some .resolveTop)
      ∧ ((∀ k, ∃ j, getTopTaskJob (trace k) = some j ∧ j.global_id ≠ "" ∧
            j.global_id ≠ globalId) →
          waitUntilTopTask trace globalId timeout = some .rejectTimeout) := by
  intro trace globalId timeout
  refine ⟨waitUntilTopTask_settles trace globalId timeout, ?_, ?_⟩
  · intro j hj hjg hg
    have hp : pollStep (trace 0) globalId (100 * (0 + 1)) timeout = .resolveTop := by
      simp [pollStep, hj, hjg, hg]
    unfold waitUntilTopTask
    rw [waitAux, hp]
  · intro hall
    obtain ⟨r, hr⟩ := Option.isSome_iff_exists.mp
      (waitUntilTopTask_settles trace globalId timeout)
    obtain ⟨k2, hk2, hne⟩ := waitAux_provenance trace globalId timeout _ 0 r hr
    obtain ⟨j, hj, hj1, hj2⟩ := hall k2
    have hrt : r = .rejectTimeout := by
      unfold pollStep at hk2
      rw [hj] at hk2
      simp [hj1, hj2] at hk2
      by_cases he : timeout < 100 * (k2 + 1)
      · rw [if_pos he] at hk2
        exact hk2.symm
      · rw [if_neg he] at hk2
        exact absurd hk2.symm hne
    rw [hrt] at hr
    exact hr

/-- The head ticket of the C8 witness trace. -/
def tHead : Ticket := ⟨1, "w8", "p", 0⟩

/-- C8 witness: a caller whose ticket heads a constant queue resolves. -/
theorem wait_poll_terminates_witness :
    waitUntilTopTask (fun _ => [tHead]) "w8" 300 = some .resolveTop :=
  (wait_poll_terminates (fun _ => [tHead]) "w8" 300).2.1 tHead (by decide) rfl (by decide)

/-! ## C9 -/

/-- A ticket created in the very millisecond the sweep runs. -/
def tFresh : Ticket := ⟨1, "f", "p", 5⟩

/-- C9 counterexample: with `TASK_JOB_TIMEOUT = 0` the sweep at `now = 5`
keeps a ticket whose `created_at` is exactly 5, because the deletion
predicate is the strict `created_at < now - timeout`; the queue is not left
empty. -/
theorem sweep_zero_timeout_cex :
    removeTimeoutJob 5 0 [tFresh] = [tFresh] ∧ [tFresh] ≠ ([] : List Ticket) := by
  exact ⟨by decide, by decide⟩

/-- C9 (amended): `removeTimeoutJob` removes exactly the tickets with
`created_at` strictly earlier than `now - timeout` and no others; with a
timeout of 0 it removes exactly the tickets created strictly before `now`,
so a ticket stamped in the sweep's own millisecond survives. -/
theorem sweep_removes_strictly_older (now timeout : Int) (ts : List Ticket)
    (t : Ticket) :
    t ∈ removeTimeoutJob now timeout ts ↔
      t ∈ ts ∧ ¬(t.created_at < now - timeout) := by
  unfold removeTimeoutJob
  rw [List.mem_filter]
  simp

/-- C9 witness: the same-millisecond ticket is kept by the zero-timeout
sweep. -/
theorem sweep_removes_strictly_older_witness :
    tFresh ∈ removeTimeoutJob 5 0 [tFresh] :=
  (sweep_removes_strictly_older 5 0 [tFresh] tFresh).mpr (by decide)

/-! ## C7 -/

theorem removeTaskJob_fresh (gid : String) (ts : List Ticket)
    (h : ∀ t ∈ ts, t.global_id ≠ gid) : removeTaskJob gid ts = ts := by
  unfold removeTaskJob
  exact List.filter_eq_self.mpr (fun t ht => by simpa using h t ht)

theorem removeTaskJob_add (q : QueueState) (tjGid agid : String) (now : Int)
    (h : ∀ t ∈ q.tickets, t.global_id ≠ tjGid) :
    (removeTaskJobQ tjGid (addATaskJob q tjGid agid now)).tickets = q.tickets := by
  unfold removeTaskJobQ addATaskJob removeTaskJob
  rw [List.filter_append]
  rw [List.filter_eq_self.mpr (fun t ht => by simpa using h t ht)]
  simp

/-- C7: `getIntelligences` removes the ticket it created on every exit
path — queue-wait rejection, producer not found, security key mismatch,
producer not active, or success — so when the generated task-job globalId
is fresh the queue rows return exactly to their pre-call state; and
`removeTaskJob` is idempotent and a no-op on an absent globalId, so the
repeated release on the error path is safe. -/
theorem no_ticket_leak :
    (∀ (env : Env) (q : QueueState) (now : Int)
        (taskJobGlobalId producerGid : String) (securityKey : Option String),
      (∀ t ∈ q.tickets, t.global_id ≠ taskJobGlobalId) →
      (getIntelligences env q now taskJobGlobalId producerGid securityKey).2.tickets
        = q.tickets)
    ∧ (∀ (gid : String) (ts : List Ticket),
        removeTaskJob gid (removeTaskJob gid ts) = removeTaskJob gid ts)
    ∧ (∀ (gid : String) (ts : List Ticket), (∀ t ∈ ts, t.global_id ≠ gid) →
        removeTaskJob gid ts = ts) := by
  refine ⟨?_, ?_, removeTaskJob_fresh⟩
  · intro env q now tjGid producerGid securityKey hfresh
    have hq := removeTaskJob_add q tjGid producerGid now hfresh
    unfold getIntelligences
    dsimp only
    split
    · exact hq
    · split
      · exact hq
      · split
        · exact hq
        · split
          · exact hq
          · exact hq
  · intro gid ts
    unfold removeTaskJob
    rw [List.filter_filter]
    congr 1
    funext t
    exact Bool.and_self _

/-- The empty environment used by the C7 witness. -/
def envW : Env := ⟨[], fun _ _ => [], fun _ => [], 0⟩

/-- C7 witness: a call against an empty queue leaves the queue empty, and
releasing an absent ticket is a no-op. -/
theorem no_ticket_leak_witness :
    (getIntelligences envW ⟨[], 0⟩ 0 "tj" "p" none).2.tickets = ([] : List Ticket)
    ∧ removeTaskJob "g" ([] : List Ticket) = [] :=
  ⟨no_ticket_leak.1 envW ⟨[], 0⟩ 0 "tj" "p" none (by simp),
   no_ticket_leak.2.2 "g" [] (by simp)⟩

/-! ## C10 -/

/-- C10: passing the literal string "undefined" or "null" as the security
key behaves exactly like passing no key at all: both the caller's key and
the producer's stored key are normalised to `undefined` before the trimmed
comparison, so the whole call — returned value and resulting queue state —
is identical. -/
theorem security_key_literal_normalization :
    ∀ (env : Env) (q : QueueState) (now : Int)
      (taskJobGlobalId producerGid : String),
      getIntelligences env q now taskJobGlobalId producerGid (some "undefined")
        = getIntelligences env q now taskJobGlobalId producerGid none
      ∧ getIntelligences env q now taskJobGlobalId producerGid (some "null")
        = getIntelligences env q now taskJobGlobalId producerGid none := by
  intro env q now tjGid producerGid
  constructor
  · unfold getIntelligences
    rw [show normalizeKey (some "undefined") = none from by decide]
    exact rfl
  · unfold getIntelligences
    rw [show normalizeKey (some "null") = none from by decide]
    exact rfl

end Dia
